import Mathlib

/-!
Shallow embedding of the capture-the-flag simulation engine
(`src/lib/gameEnvironment.js`, `src/lib/gameController.js`,
`src/lib/rlAgent.js`) and proofs about its specification claims.

Modelling conventions:
* JS numbers holding grid coordinates and scores are modelled as `Int`;
  reward arithmetic is modelled over `ℚ` (all reward constants in the
  source are exact decimal literals).
* Agent ids are the strings `"red-<i>"` / `"blue-<i>"` in the source;
  this formatting is a bijection with a pair (team colour, index), so ids
  are modelled as such pairs.
* A JS field that may be `undefined` before first assignment
  (`previousX`, `previousY`, `lastKnownScore`) is an `Option`;
  `agent.stationaryCount || 0` makes `stationaryCount` behave as a
  plain `Nat` defaulting to 0.
* `Math.random()` is modelled by an oracle `rng : ℕ → ℕ` threaded with a
  call counter; `Math.floor(Math.random() * gridSize)` becomes
  `randRow gridSize (rng k)`, reduction modulo `gridSize`.
* The heatmap / position-history fields of the environment are
  rendering statistics; no claim touches them and they are not modelled.
-/

namespace CTF

inductive TeamColor where
  | red : TeamColor
  | blue : TeamColor
deriving DecidableEq, Repr

structure AgentId where
  color : TeamColor
  index : Nat
deriving DecidableEq, Repr

/-- A grid cell, used for flags and wall positions. -/
structure Cell where
  x : Int
  y : Int
deriving DecidableEq, Repr

/-- A team member, mirroring the agent objects built in `reset()`. -/
structure Agent where
  id : AgentId
  x : Int
  y : Int
  hasFlag : Bool
  role : String
  previousX : Option Int
  previousY : Option Int
  stationaryCount : Nat
  lastKnownScore : Option Int
deriving DecidableEq, Repr

structure RewardWeights where
  offense : ℚ
  defense : ℚ
  cooperation : ℚ
deriving DecidableEq, Repr

/-- The mutable state of `GameEnvironment`. -/
structure GameEnv where
  gridSize : Int
  teamSize : Nat
  rewardWeights : RewardWeights
  redFlag : Cell
  blueFlag : Cell
  redFlagHolder : Option AgentId
  blueFlagHolder : Option AgentId
  redTeam : List Agent
  blueTeam : List Agent
  walls : List Cell
  redScore : Int
  blueScore : Int
  episode : Int
  episodeSteps : Int
  maxEpisodeSteps : Int
deriving DecidableEq, Repr

/-- `Math.floor(g / 2)` on a JS number holding an integer. -/
def halfFloor (g : Int) : Int := Int.fdiv g 2

/-- The wall pattern regenerated by `reset()`: a vertical line at the
midline for `6 <= i < gridSize - 6`, skipping rows divisible by 3. -/
def defaultWalls (g : Int) : List Cell :=
  (((List.range (g - 12).toNat).map (fun k => (6 : Int) + k)).filter
    (fun i => i % 3 ≠ 0)).map (fun i => ⟨halfFloor g, i⟩)

def mkAgent (c : TeamColor) (i : Nat) (x y : Int) : Agent :=
  { id := ⟨c, i⟩, x := x, y := y, hasFlag := false, role := "offense",
    previousX := none, previousY := none, stationaryCount := 0,
    lastKnownScore := none }

/-- `reset()` of `GameEnvironment`. -/
def reset (e : GameEnv) : GameEnv :=
  { e with
    redFlag := ⟨2, halfFloor e.gridSize⟩
    blueFlag := ⟨e.gridSize - 3, halfFloor e.gridSize⟩
    redFlagHolder := none
    blueFlagHolder := none
    redTeam := (List.range e.teamSize).map
      (fun i => mkAgent .red i 1 (3 + (i : Int) * 3))
    blueTeam := (List.range e.teamSize).map
      (fun i => mkAgent .blue i (e.gridSize - 2) (3 + (i : Int) * 3))
    walls := defaultWalls e.gridSize
    redScore := 0
    blueScore := 0
    episode := 0
    episodeSteps := 0
    maxEpisodeSteps := 500 }

/-- The constructor `new GameEnvironment(gridSize, teamSize, rewardWeights)`:
stores the parameters and calls `reset()`. -/
def mkEnv (g : Int) (n : Nat) (w : RewardWeights) : GameEnv :=
  reset
    { gridSize := g, teamSize := n, rewardWeights := w,
      redFlag := ⟨0, 0⟩, blueFlag := ⟨0, 0⟩,
      redFlagHolder := none, blueFlagHolder := none,
      redTeam := [], blueTeam := [], walls := [],
      redScore := 0, blueScore := 0, episode := 0, episodeSteps := 0,
      maxEpisodeSteps := 0 }

def updateWalls (e : GameEnv) (newWalls : List Cell) : GameEnv :=
  { e with walls := newWalls }

def updateFlags (e : GameEnv) (redFlag blueFlag : Cell) : GameEnv :=
  { e with redFlag := redFlag, blueFlag := blueFlag }

/-! ## Movement -/

/-- `dx = [0, 0, 1, 0, -1]` (0 stay, 1 up, 2 right, 3 down, 4 left). -/
def dxList : List Int := [0, 0, 1, 0, -1]

/-- `dy = [0, -1, 0, 1, 0]`. -/
def dyList : List Int := [0, -1, 0, 1, 0]

/-- `isValidMove(x, y)`: inside the grid and not on a wall. -/
def isValidMove (e : GameEnv) (x y : Int) : Bool :=
  if x < 0 ∨ x ≥ e.gridSize ∨ y < 0 ∨ y ≥ e.gridSize then false
  else if e.walls.any (fun w => w.x = x ∧ w.y = y) then false
  else true

/-- `moveAgent(agent, action)`; the environment is only consulted for
`isValidMove`.  Actions are the valid range `{0..4}` of the source. -/
def moveAgent (e : GameEnv) (a : Agent) (action : Fin 5) : Agent :=
  let newX := a.x + dxList.getD action.val 0
  let newY := a.y + dyList.getD action.val 0
  if isValidMove e newX newY then { a with x := newX, y := newY } else a

/-- The per-agent loop at the top of `step`: agents with a supplied
action move, others stay. -/
def applyMoves (e : GameEnv) (actions : AgentId → Option (Fin 5)) : GameEnv :=
  { e with
    redTeam := e.redTeam.map (fun a =>
      match actions a.id with
      | some act => moveAgent e a act
      | none => a)
    blueTeam := e.blueTeam.map (fun a =>
      match actions a.id with
      | some act => moveAgent e a act
      | none => a) }

/-! ## Flag captures

`checkFlagCaptures` runs the same loop body for both teams (red agents
against the blue flag with home test `x <= 1`, then blue agents against
the red flag with home test `x >= gridSize - 2`); `captureOne` is that
shared body and `capturePass` the `forEach`. -/

/-- One iteration of a capture loop: pick the enemy flag up when standing
on its unheld cell, then (possibly in the same tick) score by reaching
home while carrying.  Returns the updated agent, flag holder, score and
`flagCaptured` accumulator. -/
def captureOne (flag : Cell) (isHome : Int → Bool) (a : Agent)
    (holder : Option AgentId) (score : Int) (fc : Bool) :
    Agent × Option AgentId × Int × Bool :=
  let p : Agent × Option AgentId :=
    if ¬a.hasFlag ∧ a.x = flag.x ∧ a.y = flag.y ∧ holder = none then
      ({ a with hasFlag := true }, some a.id)
    else (a, holder)
  if p.1.hasFlag ∧ isHome p.1.x then
    ({ p.1 with hasFlag := false }, none, score + 1, true)
  else (p.1, p.2, score, fc)

def capturePass (flag : Cell) (isHome : Int → Bool) :
    List Agent → Option AgentId → Int → Bool →
    List Agent × Option AgentId × Int × Bool
  | [], holder, score, fc => ([], holder, score, fc)
  | a :: rest, holder, score, fc =>
    let r := captureOne flag isHome a holder score fc
    let q := capturePass flag isHome rest r.2.1 r.2.2.1 r.2.2.2
    (r.1 :: q.1, q.2)

/-- `checkFlagCaptures()`: red pass then blue pass; returns the updated
environment and the `flagCaptured` flag. -/
def checkFlagCaptures (e : GameEnv) : GameEnv × Bool :=
  let r := capturePass e.blueFlag (fun x => decide (x ≤ 1))
    e.redTeam e.blueFlagHolder e.redScore false
  let b := capturePass e.redFlag (fun x => decide (x ≥ e.gridSize - 2))
    e.blueTeam e.redFlagHolder e.blueScore r.2.2.2
  ({ e with
      redTeam := r.1, blueFlagHolder := r.2.1, redScore := r.2.2.1,
      blueTeam := b.1, redFlagHolder := b.2.1, blueScore := b.2.2.1 },
    b.2.2.2)

/-! ## Tagging -/

/-- `Math.floor(Math.random() * gridSize)` for one oracle draw. -/
def randRow (g : Int) (r : ℕ) : Int := (r % g.toNat : ℕ)

/-- Red territory test: JS `x <= gridSize / 2` with float division; for
integer `x` this is exactly `2 * x ≤ gridSize`. -/
def redTerritory (g x : Int) : Bool := decide (2 * x ≤ g)

/-- Blue territory test: JS `x >= gridSize / 2`, i.e. `2 * x ≥ gridSize`. -/
def blueTerritory (g x : Int) : Bool := decide (2 * x ≥ g)

/-- One iteration of an inner tagging loop: if the tagged-side agent `b`
is inside the tagger's territory on the tagger's cell, relocate it to its
spawn edge at an oracle-drawn row and strip any carried flag (resetting
that flag to its default cell and clearing the holder). -/
def tagOne (terr : Int → Bool) (spawnX : Int) (defFlag : Cell) (g : Int)
    (tagger b : Agent) (holder : Option AgentId) (flag : Cell)
    (rng : ℕ → ℕ) (k : ℕ) :
    Agent × Option AgentId × Cell × ℕ :=
  if terr b.x ∧ tagger.x = b.x ∧ tagger.y = b.y then
    let b' := { b with x := spawnX, y := randRow g (rng k) }
    if b'.hasFlag then
      ({ b' with hasFlag := false }, none, defFlag, k + 1)
    else (b', holder, flag, k + 1)
  else (b, holder, flag, k)

def tagInner (terr : Int → Bool) (spawnX : Int) (defFlag : Cell) (g : Int)
    (tagger : Agent) (rng : ℕ → ℕ) :
    List Agent → Option AgentId → Cell → ℕ →
    List Agent × Option AgentId × Cell × ℕ
  | [], holder, flag, k => ([], holder, flag, k)
  | b :: rest, holder, flag, k =>
    let r := tagOne terr spawnX defFlag g tagger b holder flag rng k
    let q := tagInner terr spawnX defFlag g tagger rng rest r.2.1 r.2.2.1 r.2.2.2
    (r.1 :: q.1, q.2)

def tagOuter (terrTagger terrTagged : Int → Bool) (spawnX : Int)
    (defFlag : Cell) (g : Int) (rng : ℕ → ℕ) :
    List Agent → List Agent → Option AgentId → Cell → ℕ →
    List Agent × Option AgentId × Cell × ℕ
  | [], tagged, holder, flag, k => (tagged, holder, flag, k)
  | t :: ts, tagged, holder, flag, k =>
    if terrTagger t.x then
      let r := tagInner terrTagged spawnX defFlag g t rng tagged holder flag k
      tagOuter terrTagger terrTagged spawnX defFlag g rng ts r.1 r.2.1 r.2.2.1 r.2.2.2
    else
      tagOuter terrTagger terrTagged spawnX defFlag g rng ts tagged holder flag k

/-- `checkTagging()`: the red pass relocates blue intruders to
`x = gridSize - 2` (resetting the red flag when dropped), then the blue
pass relocates red intruders to `x = 1` (resetting the blue flag). -/
def checkTagging (e : GameEnv) (rng : ℕ → ℕ) (k : ℕ) : GameEnv × ℕ :=
  let g := e.gridSize
  let r := tagOuter (redTerritory g) (redTerritory g) (g - 2)
    ⟨2, halfFloor g⟩ g rng e.redTeam e.blueTeam e.redFlagHolder e.redFlag k
  let b := tagOuter (blueTerritory g) (blueTerritory g) 1
    ⟨g - 3, halfFloor g⟩ g rng r.1 e.redTeam e.blueFlagHolder e.blueFlag r.2.2.2
  ({ e with
      blueTeam := r.1, redFlagHolder := r.2.1, redFlag := r.2.2.1,
      redTeam := b.1, blueFlagHolder := b.2.1, blueFlag := b.2.2.1 },
    b.2.2.2)

/-! ## Rewards

`calculateRewards` runs the same shaped-reward computation for both
teams with the sides mirrored; `agentRewardCore` is that shared
per-agent body.  It returns the reward together with the agent's updated
bookkeeping fields (`stationaryCount`, `previousX/Y`, `lastKnownScore`).
The loops only read positions, ids and `hasFlag` of the other agents, so
the team lists passed in are the lists as of the start of
`calculateRewards`; the bookkeeping fields they differ in are never
read. -/

/-- JS `<` on a possibly-`undefined` left operand: `undefined < n` is
`false` (NaN comparison). -/
def jsLt (m : Option Int) (n : Int) : Bool :=
  match m with
  | none => false
  | some m => decide (m < n)

/-- `Math.abs(ax - bx) + Math.abs(ay - by)`. -/
def mdist (ax ay bx bY : Int) : ℕ := (ax - bx).natAbs + (ay - bY).natAbs

/-- `countTeammatesNearby(agent, radius)`. -/
def countTeammatesNearby (team : List Agent) (a : Agent) (radius : ℕ) : ℕ :=
  (team.filter (fun t => t.id ≠ a.id ∧ mdist a.x a.y t.x t.y ≤ radius)).length

def agentRewardCore (w : RewardWeights)
    (ownSide enemySide : Int → Bool) (baseDist : Int → Int)
    (ownFlag enemyFlag : Cell) (mates enemies : List Agent)
    (ownScore : Int) (ownHolder : Option AgentId) (a : Agent) :
    ℚ × Agent :=
  let offense : ℚ :=
    if a.hasFlag then
      1 * w.offense +
        (if ownSide a.x then
          (5 / ((baseDist a.x : ℚ) + 1)) * w.offense
        else 0)
    else if enemySide a.x then
      (10 / ((mdist a.x a.y enemyFlag.x enemyFlag.y : ℚ) + 1)) * w.offense * (1/2)
    else 0
  let defense : ℚ :=
    if ownSide a.x then
      (if (enemies.any fun en =>
            ownSide en.x ∧ mdist en.x en.y ownFlag.x ownFlag.y < 5) ∧
          mdist a.x a.y ownFlag.x ownFlag.y < 5 then
        (5 / ((mdist a.x a.y ownFlag.x ownFlag.y : ℚ) + 1)) * w.defense
      else 0) +
      (match enemies.find? (fun en => en.hasFlag) with
       | some en =>
         if ownSide en.x then
           (10 / ((mdist a.x a.y en.x en.y : ℚ) + 1)) * w.defense
         else 0
       | none => 0)
    else 0
  let nMates := countTeammatesNearby mates a 3
  let coop : ℚ :=
    if 0 < nMates then
      (nMates : ℚ) * (1/10) * w.cooperation * (if enemySide a.x then 2 else 1)
    else 0
  let stay : Bool := a.previousX = some a.x ∧ a.previousY = some a.y
  let penalty : ℚ :=
    if stay ∧ a.stationaryCount + 1 > 3 then
      (1/10) * ((a.stationaryCount : ℚ) + 1)
    else 0
  let a1 :=
    if stay then { a with stationaryCount := a.stationaryCount + 1 }
    else { a with stationaryCount := 0,
                  previousX := some a.x, previousY := some a.y }
  let bonusFires : Bool :=
    decide (ownScore > 0) && decide (ownHolder = none) &&
      jsLt a1.lastKnownScore ownScore
  let bonus : ℚ := if bonusFires then 20 else 0
  let a2 :=
    if bonusFires then { a1 with lastKnownScore := some ownScore } else a1
  ((1/100 : ℚ) + offense + defense + coop - penalty + bonus, a2)

/-- The red-team instantiation of the reward body (own side is JS
`x < gridSize / 2`, i.e. `2 * x < gridSize` for integer `x`; enemy side
is `x > gridSize / 2`). -/
def redAgentReward (e : GameEnv) (a : Agent) : ℚ × Agent :=
  agentRewardCore e.rewardWeights
    (fun x => decide (2 * x < e.gridSize))
    (fun x => decide (2 * x > e.gridSize))
    (fun x => x) e.redFlag e.blueFlag e.redTeam e.blueTeam
    e.redScore e.redFlagHolder a

/-- The blue-team instantiation of the reward body (sides mirrored,
home-distance `gridSize - x`). -/
def blueAgentReward (e : GameEnv) (a : Agent) : ℚ × Agent :=
  agentRewardCore e.rewardWeights
    (fun x => decide (2 * x > e.gridSize))
    (fun x => decide (2 * x < e.gridSize))
    (fun x => e.gridSize - x) e.blueFlag e.redFlag e.blueTeam e.redTeam
    e.blueScore e.blueFlagHolder a

/-- `calculateRewards()`: the `rewards[agent.id] = reward` association
list in loop order, and the environment with updated bookkeeping. -/
def calculateRewards (e : GameEnv) : List (AgentId × ℚ) × GameEnv :=
  let red := e.redTeam.map (fun a => (a.id, redAgentReward e a))
  let blue := e.blueTeam.map (fun a => (a.id, blueAgentReward e a))
  (red.map (fun p => (p.1, p.2.1)) ++ blue.map (fun p => (p.1, p.2.1)),
    { e with
      redTeam := red.map (fun p => p.2.2),
      blueTeam := blue.map (fun p => p.2.2) })

/-! ## The step function -/

structure StepResult where
  rewards : List (AgentId × ℚ)
  done : Bool
  infoRedScore : Int
  infoBlueScore : Int
  infoEpisode : Int
  infoSteps : Int
deriving DecidableEq, Repr

/-- `step(actions)`: moves, captures, tagging, rewards, episode
bookkeeping.  (`result.states`, computed by the read-only
`getStateForAgent`, and the heatmap update touch no claim and are not
modelled.) -/
def step (e : GameEnv) (actions : AgentId → Option (Fin 5))
    (rng : ℕ → ℕ) : StepResult × GameEnv :=
  let e1 := applyMoves e actions
  let cap := checkFlagCaptures e1
  let e2 := cap.1
  let e3 := (checkTagging e2 rng 0).1
  let rw := calculateRewards e3
  let e4 := rw.2
  let steps := e4.episodeSteps + 1
  let isDone : Bool := cap.2 || decide (steps ≥ e4.maxEpisodeSteps)
  let e5 :=
    if isDone then { e4 with episode := e4.episode + 1, episodeSteps := 0 }
    else { e4 with episodeSteps := steps }
  ({ rewards := rw.1, done := isDone,
     infoRedScore := e5.redScore, infoBlueScore := e5.blueScore,
     infoEpisode := e5.episode, infoSteps := e5.episodeSteps }, e5)

/-- States reachable from `reset()` by `step(actions)` calls, for a fixed
construction (grid size, team size, reward weights). -/
inductive Reachable (g : Int) (n : Nat) (w : RewardWeights) : GameEnv → Prop
  | base : Reachable g n w (mkEnv g n w)
  | step (e : GameEnv) (actions : AgentId → Option (Fin 5)) (rng : ℕ → ℕ) :
      Reachable g n w e → Reachable g n w (step e actions rng).2

/-! ## The controller (`src/lib/gameController.js`)

The RL agent's TensorFlow networks are summarised by opaque weight
handles (`Nat`); `tf.loadLayersModel` over browser storage is the oracle
`store : AgentId → Option Nat` (the storage key `agent-<id>` is a fixed
injective wrapper around the agent id).  `loadModel` either yields the
agent with its Q-network replaced and the target network resynchronised,
or fails (a rejected promise) leaving the agent untouched. -/

structure RLAgentM where
  id : AgentId
  model : Nat
  targetModel : Nat
deriving DecidableEq, Repr

/-- `loadModel(path)` of `RLAgent`: on success replaces `this.model` and
copies it into the target network; on a missing key the promise rejects
and nothing is assigned. -/
def loadModel (store : AgentId → Option Nat) (ag : RLAgentM) :
    Option RLAgentM :=
  match store ag.id with
  | some m => some { ag with model := m, targetModel := m }
  | none => none

structure Controller where
  environment : GameEnv
  agents : List RLAgentM
  isTraining : Bool
  episodeCount : Nat
  maxEpisodes : Nat
  redWins : Nat
  blueWins : Nat
  episodeRewardHistory : List (ℚ × ℚ)
  episodeStepHistory : List Int
  customObstacles : List Cell
  customFlagPositions : String → Cell

/-- `new GameController(...)`: fresh environment, fresh agents (their
initial random network weights are the handle 0), default custom flag
positions under the keys `"red"` / `"blue"` (other keys are absent in the
JS object; the model returns a dummy cell for them). -/
def mkController (g : Int) (n : Nat) (w : RewardWeights) : Controller :=
  { environment := mkEnv g n w
    agents := (List.range n).map (fun i => ⟨⟨.red, i⟩, 0, 0⟩) ++
      (List.range n).map (fun i => ⟨⟨.blue, i⟩, 0, 0⟩)
    isTraining := false
    episodeCount := 0
    maxEpisodes := 1000
    redWins := 0
    blueWins := 0
    episodeRewardHistory := []
    episodeStepHistory := []
    customObstacles := []
    customFlagPositions := fun t =>
      if t = "red" then ⟨2, halfFloor g⟩
      else if t = "blue" then ⟨g - 3, halfFloor g⟩
      else ⟨0, 0⟩ }

/-- `loadAgents()`: all per-agent loads are dispatched; each successful
load replaces that agent's networks as its promise resolves, and
`Promise.all` makes the call return `false` as soon as any load fails
(the `try/catch` never lets the error escape). -/
def loadAgents (store : AgentId → Option Nat) (c : Controller) :
    Bool × Controller :=
  (c.agents.all (fun ag => (loadModel store ag).isSome),
    { c with agents := c.agents.map (fun ag => (loadModel store ag).getD ag) })

/-- `episodeEnded(result)`: metric bookkeeping, then an explicit
`environment.reset()` (the stray `console.log` on training completion is
ignored). -/
def episodeEnded (c : Controller) (res : StepResult) : Controller :=
  let c1 : Controller := { c with episodeCount := c.episodeCount + 1 }
  let c2 : Controller :=
    if c1.environment.redScore > c1.environment.blueScore then
      { c1 with redWins := c1.redWins + 1 }
    else if c1.environment.blueScore > c1.environment.redScore then
      { c1 with blueWins := c1.blueWins + 1 }
    else c1
  let c3 : Controller := { c2 with
    episodeStepHistory := c2.episodeStepHistory ++ [c2.environment.episodeSteps] }
  let redTotal := (res.rewards.filter (fun p => p.1.color = .red)).foldl
    (fun s p => s + p.2) 0
  let blueTotal := (res.rewards.filter (fun p => ¬p.1.color = .red)).foldl
    (fun s p => s + p.2) 0
  let c4 : Controller := { c3 with
    episodeRewardHistory := c3.episodeRewardHistory ++ [(redTotal, blueTotal)] }
  let c5 : Controller :=
    if c4.isTraining && decide (c4.episodeCount ≥ c4.maxEpisodes) then
      { c4 with isTraining := false }
    else c4
  { c5 with environment := reset c5.environment }

/-- `isValidObstaclePosition(x, y)`. -/
def isValidObstaclePosition (c : Controller) (x y : Int) : Bool :=
  if x < 0 ∨ x ≥ c.environment.gridSize ∨
      y < 0 ∨ y ≥ c.environment.gridSize then false
  else if (x = c.environment.redFlag.x ∧ y = c.environment.redFlag.y) ∨
      (x = c.environment.blueFlag.x ∧ y = c.environment.blueFlag.y) then false
  else if x = halfFloor c.environment.gridSize ∧ y % 3 = 0 then false
  else true

/-- `addObstacle(x, y)`. -/
def addObstacle (c : Controller) (x y : Int) : Bool × Controller :=
  if isValidObstaclePosition c x y then
    let c1 : Controller :=
      { c with customObstacles := c.customObstacles ++ [⟨x, y⟩] }
    let env1 := updateWalls c1.environment
      (c1.environment.walls ++ c1.customObstacles)
    (true, { c1 with environment := env1 })
  else (false, c)

/-- `isValidFlagPosition(team, x, y)` (the JS midline comparisons
`x >= gridSize / 2` / `x < gridSize / 2` are the integer tests
`2 * x ≥ gridSize` / `2 * x < gridSize`). -/
def isValidFlagPosition (c : Controller) (team : String) (x y : Int) : Bool :=
  if x < 0 ∨ x ≥ c.environment.gridSize ∨
      y < 0 ∨ y ≥ c.environment.gridSize then false
  else if team = "red" ∧ 2 * x ≥ c.environment.gridSize then false
  else if team = "blue" ∧ 2 * x < c.environment.gridSize then false
  else if (c.environment.walls ++ c.customObstacles).any
      (fun w => w.x = x ∧ w.y = y) then false
  else true

/-- `updateFlagPosition(team, x, y)`. -/
def updateFlagPosition (c : Controller) (team : String) (x y : Int) :
    Bool × Controller :=
  if isValidFlagPosition c team x y then
    let pos : String → Cell :=
      fun t => if t = team then ⟨x, y⟩ else c.customFlagPositions t
    let env :=
      if team = "red" then
        updateFlags c.environment (pos "red") c.environment.blueFlag
      else
        updateFlags c.environment c.environment.redFlag (pos "blue")
    (true, { c with customFlagPositions := pos, environment := env })
  else (false, c)

/-! ## Spec-side definitions -/

/-- Modelled from the spec, §4.1 step 1: the fixed action deltas
`{0:(0,0), 1:(0,-1), 2:(1,0), 3:(0,1), 4:(-1,0)}`. -/
def specDeltas : Fin 5 → Int × Int
  | ⟨0, _⟩ => (0, 0)
  | ⟨1, _⟩ => (0, -1)
  | ⟨2, _⟩ => (1, 0)
  | ⟨3, _⟩ => (0, 1)
  | ⟨4, _⟩ => (-1, 0)
  | ⟨n + 5, h⟩ => absurd h (by omega)

/-- Modelled from the spec, §4.1 step 1: compute the candidate cell via
the fixed deltas and move there iff it is within `[0, gridSize)` on both
axes and not a wall cell; otherwise the agent stays. -/
def specMoveAgent (e : GameEnv) (a : Agent) (action : Fin 5) : Agent :=
  let nx := a.x + (specDeltas action).1
  let ny := a.y + (specDeltas action).2
  if (0 ≤ nx ∧ nx < e.gridSize ∧ 0 ≤ ny ∧ ny < e.gridSize) ∧
      (∀ w ∈ e.walls, ¬(w.x = nx ∧ w.y = ny)) then
    { a with x := nx, y := ny }
  else a

/-! ## Concrete instances

A small concrete scenario on a 6×6 grid with one agent per team (the
grid is small enough that `reset()` generates no walls): `red-0` starts
at (1,3), the blue flag is at (3,3); the action sequence right, right,
left, left picks the blue flag up on tick 2 and returns it on tick 4,
scoring the first point. -/

def weights1 : RewardWeights := ⟨1, 1, 1⟩

def env6 : GameEnv := mkEnv 6 1 weights1

/-- `red-0` plays `a`, everyone else stays. -/
def actsRed (a : Fin 5) : AgentId → Option (Fin 5) :=
  fun i => if i = ⟨.red, 0⟩ then some a else some 0

def rng0 : ℕ → ℕ := fun _ => 0

def trace1 : StepResult × GameEnv := step env6 (actsRed 2) rng0
def trace2 : StepResult × GameEnv := step trace1.2 (actsRed 2) rng0
def trace3 : StepResult × GameEnv := step trace2.2 (actsRed 4) rng0
def trace4 : StepResult × GameEnv := step trace3.2 (actsRed 4) rng0

/-- The environment inside tick 4, after moves, captures and tagging,
at the moment `calculateRewards` runs. -/
def e4c1 : GameEnv :=
  (checkTagging (checkFlagCaptures (applyMoves trace3.2 (actsRed 4))).1 rng0 0).1

def redA4 : Agent :=
  { id := ⟨.red, 0⟩, x := 1, y := 3, hasFlag := false, role := "offense",
    previousX := some 2, previousY := some 3, stationaryCount := 0,
    lastKnownScore := none }

def blueA4 : Agent :=
  { id := ⟨.blue, 0⟩, x := 4, y := 3, hasFlag := false, role := "offense",
    previousX := some 4, previousY := some 3, stationaryCount := 2,
    lastKnownScore := none }

/-- `e4c1`, written out: the score just became 1 and the red-flag holder
is `null`, so the source's capture-bonus guard is reached. -/
def E4 : GameEnv :=
  { gridSize := 6, teamSize := 1, rewardWeights := weights1,
    redFlag := ⟨2, 3⟩, blueFlag := ⟨3, 3⟩,
    redFlagHolder := none, blueFlagHolder := none,
    redTeam := [redA4], blueTeam := [blueA4], walls := [],
    redScore := 1, blueScore := 0, episode := 0, episodeSteps := 3,
    maxEpisodeSteps := 500 }

def ctrl20 : Controller := mkController 20 3 weights1

/-- The capture-bonus guard of the reward body: JS
`score > 0 && holder === null && agent.lastKnownScore < score`. -/
def bonusGuard (score : Int) (holder : Option AgentId) (a : Agent) : Bool :=
  decide (score > 0) && decide (holder = none) && jsLt a.lastKnownScore score

/-- The stationary-penalty guard: position unchanged since the cached
previous position and the incremented counter exceeds 3. -/
def stationaryGuard (a : Agent) : Bool :=
  decide ((a.previousX = some a.x ∧ a.previousY = some a.y) ∧
    a.stationaryCount + 1 > 3)

/-- A 6×6 environment with all reward weights zero (claim C7). -/
def envW0 : GameEnv := mkEnv 6 1 ⟨0, 0, 0⟩

def aW : Agent := mkAgent .red 0 1 3

/-- A two-agent controller for the load-failure scenario (claim C2). -/
def ctrlC2 : Controller := mkController 4 1 weights1

/-- A model store holding saved state for `red-0` only. -/
def storeC2 : AgentId → Option Nat :=
  fun i => if i = ⟨.red, 0⟩ then some 7 else none

/-- Tagging scenario agents (claim C4): red-0 and a flag-carrying blue-0
share the cell (2,3) on the 6×6 grid. -/
def tagR4 : Agent := mkAgent .red 0 2 3

def tagB4 : Agent := { mkAgent .blue 0 2 3 with hasFlag := true }

/-- Midline-tagging scenario at grid size 4 (claim C10): one red and one
blue agent share the cell (2,1); column 2 is the midline. -/
def rC10 : Agent := mkAgent .red 0 2 1

def bC10 : Agent := mkAgent .blue 0 2 1

def envC10 : GameEnv :=
  { mkEnv 4 1 weights1 with redTeam := [rC10], blueTeam := [bC10] }

def rng1 : ℕ → ℕ := fun _ => 1

/-- Midline-tagging scenario at grid size 6 (witness for amended C10). -/
def rW10 : Agent := mkAgent .red 0 3 1

def bW10 : Agent := mkAgent .blue 0 3 1

def envW10 : GameEnv :=
  { mkEnv 6 1 weights1 with redTeam := [rW10], blueTeam := [bW10] }

/-! ## C3: the flag-holder invariant -/

/-- The per-flag consistency relation between the enemy team that can
carry this flag and the flag holder field. -/
def TeamHolderOK (team : List Agent) (holder : Option AgentId) : Prop :=
  (∀ a ∈ team, a.hasFlag = true ↔ holder = some a.id) ∧
  (∀ i, holder = some i → i ∈ team.map Agent.id)

/-- The inductive invariant: distinct ids within and across teams, and
both flags consistent with their carrying teams. -/
def StateOK (e : GameEnv) : Prop :=
  (e.redTeam.map Agent.id).Nodup ∧ (e.blueTeam.map Agent.id).Nodup ∧
  (e.redTeam.map Agent.id).Disjoint (e.blueTeam.map Agent.id) ∧
  TeamHolderOK e.redTeam e.blueFlagHolder ∧
  TeamHolderOK e.blueTeam e.redFlagHolder

/-- The flag/holder consistency invariant, worded as claim C3 states it. -/
def FlagInvariant (e : GameEnv) : Prop :=
  (∀ i, e.blueFlagHolder = some i →
    ∃! a, a ∈ e.redTeam ∧ a.id = i ∧ a.hasFlag = true) ∧
  (∀ i, e.redFlagHolder = some i →
    ∃! b, b ∈ e.blueTeam ∧ b.id = i ∧ b.hasFlag = true) ∧
  (∀ a ∈ e.redTeam, a.hasFlag = true →
    e.blueFlagHolder = some a.id ∧ ¬e.redFlagHolder = some a.id) ∧
  (∀ b ∈ e.blueTeam, b.hasFlag = true →
    e.redFlagHolder = some b.id ∧ ¬e.blueFlagHolder = some b.id)


end CTF

namespace CTF

/-! ## Claim theorems -/

/-- Claim C1 (code bug).  The spec promises a one-time 20.0 bonus the
tick a team's score increases, edge-triggered via `lastKnownScore` — but
`reset()` never initialises `lastKnownScore`, so the JS guard
`agent.lastKnownScore < this.redScore` compares `undefined` and is always
false: the bonus branch is dead and `lastKnownScore` is never assigned.
Concretely: before tick 4 the red score is 0 with no red-flag holder; on
tick 4 red-0 returns the blue flag (score becomes 1, episode ends), yet
its reward is exactly the 0.01 survival term — not 20.01 — and
`lastKnownScore` is still unset afterwards. -/
theorem c1_capture_bonus_never_paid :
    trace3.2.redScore = 0 ∧ trace3.2.redFlagHolder = none ∧
    trace4.1.done = true ∧ trace4.2.redScore = 1 ∧
    e4c1 = E4 ∧
    trace4.1.rewards.lookup (⟨.red, 0⟩ : AgentId) = some (1/100) ∧
    trace4.2.redTeam.map (fun a => a.lastKnownScore) = [none] := by
  refine ⟨by decide, by decide, by decide, by decide, by decide, ?_, by decide⟩
  rw [show trace4.1.rewards = (calculateRewards e4c1).1 from rfl,
    show e4c1 = E4 from by decide]
  norm_num [E4, redA4, blueA4, calculateRewards, redAgentReward, blueAgentReward,
    agentRewardCore, countTeammatesNearby, jsLt, mdist, List.lookup, List.find?,
    List.filter, List.any]

/-- `isValidMove` accepts exactly the in-bounds, wall-free cells. -/
theorem isValidMove_iff (e : GameEnv) (x y : Int) :
    isValidMove e x y = true ↔
      (0 ≤ x ∧ x < e.gridSize ∧ 0 ≤ y ∧ y < e.gridSize) ∧
        ∀ w ∈ e.walls, ¬(w.x = x ∧ w.y = y) := by
  simp only [isValidMove]
  split
  · rename_i h
    refine iff_of_false (by simp) ?_
    rintro ⟨⟨h1, h2, h3, h4⟩, -⟩
    rcases h with h | h | h | h <;> omega
  · rename_i h
    push_neg at h
    split
    · rename_i hw
      refine iff_of_false (by simp) ?_
      rintro ⟨-, hnw⟩
      rcases List.any_eq_true.mp hw with ⟨w, hwmem, hw2⟩
      exact hnw w hwmem (by simpa using hw2)
    · rename_i hw
      refine iff_of_true rfl ?_
      refine ⟨⟨by omega, by omega, by omega, by omega⟩, fun w hwmem hc => ?_⟩
      exact hw (List.any_eq_true.mpr ⟨w, hwmem, by simpa using hc⟩)

/-- Claim C5 (confirmed).  For every agent and action in `{0..4}`,
`moveAgent` computes the candidate cell from the fixed delta table and
moves the agent there iff the cell is within `[0, gridSize)` on both
axes and not a wall cell; otherwise the position is unchanged — i.e. it
coincides with the spec-worded `specMoveAgent`. -/
theorem c5_move_semantics (e : GameEnv) (a : Agent) (action : Fin 5) :
    moveAgent e a action = specMoveAgent e a action := by
  have hdelta : (dxList.getD action.val 0, dyList.getD action.val 0) =
      specDeltas action := by
    fin_cases action <;> rfl
  simp only [moveAgent, specMoveAgent,
    show dxList.getD action.val 0 = (specDeltas action).1 from
      congrArg Prod.fst hdelta,
    show dyList.getD action.val 0 = (specDeltas action).2 from
      congrArg Prod.snd hdelta]
  by_cases hs : (0 ≤ a.x + (specDeltas action).1 ∧
      a.x + (specDeltas action).1 < e.gridSize ∧
      0 ≤ a.y + (specDeltas action).2 ∧
      a.y + (specDeltas action).2 < e.gridSize) ∧
      ∀ w ∈ e.walls, ¬(w.x = a.x + (specDeltas action).1 ∧
        w.y = a.y + (specDeltas action).2)
  · rw [if_pos ((isValidMove_iff e _ _).mpr hs), if_pos hs]
  · rw [if_neg (fun hc => hs ((isValidMove_iff e _ _).mp hc)), if_neg hs]

/-- Claim C8 (confirmed).  `updateFlagPosition` returns `false` and
leaves the controller (environment included) unchanged whenever the
requested cell is out of bounds, on the wrong half for the team
(red: `x ≥ gridSize/2`, blue: `x < gridSize/2`), or coincides with a
wall or custom obstacle. -/
theorem c8_invalid_flag_update_rejected (c : Controller) (team : String)
    (x y : Int)
    (h : (x < 0 ∨ x ≥ c.environment.gridSize ∨ y < 0 ∨ y ≥ c.environment.gridSize) ∨
      (team = "red" ∧ 2 * x ≥ c.environment.gridSize) ∨
      (team = "blue" ∧ 2 * x < c.environment.gridSize) ∨
      ∃ w ∈ c.environment.walls ++ c.customObstacles, w.x = x ∧ w.y = y) :
    updateFlagPosition c team x y = (false, c) := by
  have hv : isValidFlagPosition c team x y = false := by
    unfold isValidFlagPosition
    split
    · rfl
    · split
      · rfl
      · split
        · rfl
        · split
          · rfl
          · rename_i h1 h2 h3 h4
            exfalso
            rcases h with h | h | h | h
            · exact h1 h
            · exact h2 h
            · exact h3 h
            · rcases h with ⟨w, hw, hxy⟩
              exact h4 (List.any_eq_true.mpr ⟨w, hw, by simpa using hxy⟩)
  unfold updateFlagPosition
  rw [hv]
  simp

/-- Witness for C8: on the default 20×20 controller,
`updateFlagPosition('red', 15, 5)` is rejected (15 is beyond the
midline 10) and the red flag is still at its default (2, 10). -/
theorem c8_witness :
    updateFlagPosition ctrl20 "red" 15 5 = (false, ctrl20) ∧
    ctrl20.environment.redFlag = ⟨2, 10⟩ :=
  ⟨c8_invalid_flag_update_rejected ctrl20 "red" 15 5
      (Or.inr (Or.inl ⟨rfl, by decide⟩)),
    by decide⟩

/-- Claim C9 (confirmed).  `episodeEnded` ends with an explicit
`environment.reset()`, which regenerates the default wall pattern and
default flag cells; the customisations stay recorded in the controller
(`customObstacles`, `customFlagPositions`) but are not reapplied to the
environment. -/
theorem c9_episode_reset_discards_customizations (c : Controller)
    (res : StepResult) :
    (episodeEnded c res).environment.walls = defaultWalls c.environment.gridSize ∧
    (episodeEnded c res).environment.redFlag =
      ⟨2, halfFloor c.environment.gridSize⟩ ∧
    (episodeEnded c res).environment.blueFlag =
      ⟨c.environment.gridSize - 3, halfFloor c.environment.gridSize⟩ ∧
    (episodeEnded c res).customObstacles = c.customObstacles ∧
    (episodeEnded c res).customFlagPositions = c.customFlagPositions := by
  have henv : (episodeEnded c res).environment = reset c.environment := by
    simp only [episodeEnded]
    split <;> (try split) <;> (try split) <;> rfl
  have hobs : (episodeEnded c res).customObstacles = c.customObstacles := by
    simp only [episodeEnded]
    split <;> (try split) <;> (try split) <;> rfl
  have hpos : (episodeEnded c res).customFlagPositions = c.customFlagPositions := by
    simp only [episodeEnded]
    split <;> (try split) <;> (try split) <;> rfl
  exact ⟨by rw [henv]; rfl, by rw [henv]; rfl, by rw [henv]; rfl, hobs, hpos⟩

/-! Counter bookkeeping is untouched by the move, capture, tagging and
reward phases of `step`. -/

theorem applyMoves_episodeSteps (e : GameEnv) (acts : AgentId → Option (Fin 5)) :
    (applyMoves e acts).episodeSteps = e.episodeSteps := rfl

theorem applyMoves_episode (e : GameEnv) (acts : AgentId → Option (Fin 5)) :
    (applyMoves e acts).episode = e.episode := rfl

theorem applyMoves_maxEpisodeSteps (e : GameEnv) (acts : AgentId → Option (Fin 5)) :
    (applyMoves e acts).maxEpisodeSteps = e.maxEpisodeSteps := rfl

theorem checkFlagCaptures_episodeSteps (e : GameEnv) :
    (checkFlagCaptures e).1.episodeSteps = e.episodeSteps := rfl

theorem checkFlagCaptures_episode (e : GameEnv) :
    (checkFlagCaptures e).1.episode = e.episode := rfl

theorem checkFlagCaptures_maxEpisodeSteps (e : GameEnv) :
    (checkFlagCaptures e).1.maxEpisodeSteps = e.maxEpisodeSteps := rfl

theorem checkTagging_episodeSteps (e : GameEnv) (rng : ℕ → ℕ) (k : ℕ) :
    (checkTagging e rng k).1.episodeSteps = e.episodeSteps := rfl

theorem checkTagging_episode (e : GameEnv) (rng : ℕ → ℕ) (k : ℕ) :
    (checkTagging e rng k).1.episode = e.episode := rfl

theorem checkTagging_maxEpisodeSteps (e : GameEnv) (rng : ℕ → ℕ) (k : ℕ) :
    (checkTagging e rng k).1.maxEpisodeSteps = e.maxEpisodeSteps := rfl

theorem calculateRewards_episodeSteps (e : GameEnv) :
    (calculateRewards e).2.episodeSteps = e.episodeSteps := rfl

theorem calculateRewards_episode (e : GameEnv) :
    (calculateRewards e).2.episode = e.episode := rfl

theorem calculateRewards_maxEpisodeSteps (e : GameEnv) :
    (calculateRewards e).2.maxEpisodeSteps = e.maxEpisodeSteps := rfl

/-- Claim C6 (confirmed).  `done` is true iff a flag was
captured-and-returned this tick or the incremented step counter reached
`maxEpisodeSteps` (500 in every state produced by `reset`); and whenever
`done` is true, `episode` is incremented and `episodeSteps` is reset to 0
before `step` returns. -/
theorem c6_done_semantics (e : GameEnv) (actions : AgentId → Option (Fin 5))
    (rng : ℕ → ℕ) (h : e.maxEpisodeSteps = 500) :
    ((step e actions rng).1.done = true ↔
      ((checkFlagCaptures (applyMoves e actions)).2 = true ∨
        e.episodeSteps + 1 ≥ 500)) ∧
    ((step e actions rng).1.done = true →
      (step e actions rng).2.episode = e.episode + 1 ∧
      (step e actions rng).2.episodeSteps = 0) := by
  simp only [step, applyMoves_episodeSteps, applyMoves_episode,
    applyMoves_maxEpisodeSteps, checkFlagCaptures_episodeSteps,
    checkFlagCaptures_episode, checkFlagCaptures_maxEpisodeSteps,
    checkTagging_episodeSteps, checkTagging_episode,
    checkTagging_maxEpisodeSteps, calculateRewards_episodeSteps,
    calculateRewards_episode, calculateRewards_maxEpisodeSteps, h]
  constructor
  · simp [Bool.or_eq_true, decide_eq_true_eq]
  · intro hdone
    simp [hdone]

/-- Witness for C6 at the concrete 6×6 environment. -/
theorem c6_witness :
    env6.maxEpisodeSteps = 500 ∧
    (((step env6 (actsRed 0) rng0).1.done = true ↔
      ((checkFlagCaptures (applyMoves env6 (actsRed 0))).2 = true ∨
        env6.episodeSteps + 1 ≥ 500)) ∧
    ((step env6 (actsRed 0) rng0).1.done = true →
      (step env6 (actsRed 0) rng0).2.episode = env6.episode + 1 ∧
      (step env6 (actsRed 0) rng0).2.episodeSteps = 0)) :=
  ⟨by decide, c6_done_semantics env6 (actsRed 0) rng0 (by decide)⟩

/-- Claim C7 (confirmed).  With reward weights all zero, an agent whose
capture bonus does not fire and whose stationary penalty is inactive
receives exactly the 0.01 survival bonus, on either team. -/
theorem c7_zero_weights_survival_bonus (e : GameEnv) (a : Agent)
    (hw : e.rewardWeights = ⟨0, 0, 0⟩)
    (hbr : bonusGuard e.redScore e.redFlagHolder a = false)
    (hbb : bonusGuard e.blueScore e.blueFlagHolder a = false)
    (hst : stationaryGuard a = false) :
    (redAgentReward e a).1 = 1/100 ∧ (blueAgentReward e a).1 = 1/100 := by
  simp only [bonusGuard] at hbr hbb
  have hst' : ¬((a.previousX = some a.x ∧ a.previousY = some a.y) ∧
      a.stationaryCount + 1 > 3) := of_decide_eq_false hst
  constructor
  · rcases hfind : List.find? (fun en => en.hasFlag) e.blueTeam with _ | en <;>
      simp [redAgentReward, agentRewardCore, hw, hfind, hst', hbr, apply_ite,
        mul_zero, zero_mul]
  · rcases hfind : List.find? (fun en => en.hasFlag) e.redTeam with _ | en <;>
      simp [blueAgentReward, agentRewardCore, hw, hfind, hst', hbb, apply_ite,
        mul_zero, zero_mul]

/-- Witness for C7 at a concrete zero-weight environment and fresh agent. -/
theorem c7_witness :
    (envW0.rewardWeights = ⟨0, 0, 0⟩ ∧
      bonusGuard envW0.redScore envW0.redFlagHolder aW = false ∧
      bonusGuard envW0.blueScore envW0.blueFlagHolder aW = false ∧
      stationaryGuard aW = false) ∧
    (redAgentReward envW0 aW).1 = 1/100 ∧ (blueAgentReward envW0 aW).1 = 1/100 :=
  ⟨⟨rfl, by decide, by decide, by decide⟩,
    c7_zero_weights_survival_bonus envW0 aW rfl (by decide) (by decide) (by decide)⟩

/-- Counterexample to claim C2 as stated: when only some loads fail,
`loadAgents` does return `false`, but the agents whose loads succeeded
already had their networks replaced — the prior policy state is not left
unchanged.  Here `red-0` has saved state (handle 7) and `blue-0` has
none: the call fails yet the agent list differs from the prior one. -/
theorem c2_partial_load_mutates :
    (loadAgents storeC2 ctrlC2).1 = false ∧
    (loadAgents storeC2 ctrlC2).2.agents ≠ ctrlC2.agents := by decide

/-- Claim C2, amended (corrected).  A failed `loadAgents` returns `false`
(never throws past the boundary), and each agent whose own load failed
keeps its prior Q-network — but each agent whose load succeeded has its
model and target network replaced by the stored state (no rollback). -/
theorem c2_load_failure_boolean_no_rollback (c : Controller)
    (store : AgentId → Option Nat)
    (h : ∃ ag ∈ c.agents, store ag.id = none) :
    (loadAgents store c).1 = false ∧
    List.Forall₂ (fun ag ag' =>
        (store ag.id = none → ag' = ag) ∧
        ∀ m, store ag.id = some m →
          ag' = { ag with model := m, targetModel := m })
      c.agents (loadAgents store c).2.agents := by
  constructor
  · rcases h with ⟨ag, hmem, hnone⟩
    apply Bool.eq_false_iff.mpr
    intro hall
    have := List.all_eq_true.mp hall ag hmem
    simp [loadModel, hnone] at this
  · simp only [loadAgents]
    rw [List.forall₂_map_right_iff]
    apply List.forall₂_same.mpr
    intro ag _
    constructor
    · intro hnone
      simp [loadModel, hnone]
    · intro m hm
      simp [loadModel, hm]

/-- Witness for the amended C2 at the concrete two-agent controller. -/
theorem c2_amended_witness :
    (∃ ag ∈ ctrlC2.agents, storeC2 ag.id = none) ∧
    ((loadAgents storeC2 ctrlC2).1 = false ∧
      List.Forall₂ (fun ag ag' =>
          (storeC2 ag.id = none → ag' = ag) ∧
          ∀ m, storeC2 ag.id = some m →
            ag' = { ag with model := m, targetModel := m })
        ctrlC2.agents (loadAgents storeC2 ctrlC2).2.agents) :=
  ⟨⟨⟨⟨.blue, 0⟩, 0, 0⟩, by decide, by decide⟩,
    c2_load_failure_boolean_no_rollback ctrlC2 storeC2
      ⟨⟨⟨.blue, 0⟩, 0, 0⟩, by decide, by decide⟩⟩

/-- `randRow` always lands in `[0, gridSize)` when the grid is nonempty,
and every such row is drawn for a suitable oracle value. -/
theorem randRow_mem (g : Int) (hg : 0 < g) (r : ℕ) :
    0 ≤ randRow g r ∧ randRow g r < g := by
  unfold randRow
  have hgn : 0 < g.toNat := by omega
  have := Nat.mod_lt r hgn
  omega

theorem randRow_surj (g : Int) (row : Int) (h1 : 0 ≤ row) (h2 : row < g) :
    ∃ rv : ℕ, randRow g rv = row := by
  refine ⟨row.toNat, ?_⟩
  unfold randRow
  have : row.toNat < g.toNat := by omega
  have := Nat.mod_eq_of_lt this
  omega

/-- Claim C4 (confirmed).  For a tagging event in either pass of
`checkTagging` (the guard of `tagOne` holds), the tagged agent is
relocated to its own side spawn edge — `x = gridSize - 2` for blue,
`x = 1` for red — at an oracle row in `[0, gridSize)` (and every such
row is attainable); if it carried a flag, `hasFlag` is cleared together
with the flag holder and the flag object is reset to its default cell;
otherwise holder and flag are untouched. -/
theorem c4_tagging_effect (g : Int) (hg : 0 < g) (rng : ℕ → ℕ) (k : ℕ)
    (tagger b : Agent) (holder : Option AgentId) (flag : Cell) :
    ((redTerritory g b.x ∧ tagger.x = b.x ∧ tagger.y = b.y) →
      (let r := tagOne (redTerritory g) (g - 2) ⟨2, halfFloor g⟩ g
        tagger b holder flag rng k
       r.1.x = g - 2 ∧ 0 ≤ r.1.y ∧ r.1.y < g ∧ r.1.hasFlag = false ∧
       r.1.id = b.id ∧
       (b.hasFlag = true → r.2.1 = none ∧ r.2.2.1 = ⟨2, halfFloor g⟩) ∧
       (b.hasFlag = false → r.2.1 = holder ∧ r.2.2.1 = flag))) ∧
    ((blueTerritory g b.x ∧ tagger.x = b.x ∧ tagger.y = b.y) →
      (let r := tagOne (blueTerritory g) 1 ⟨g - 3, halfFloor g⟩ g
        tagger b holder flag rng k
       r.1.x = 1 ∧ 0 ≤ r.1.y ∧ r.1.y < g ∧ r.1.hasFlag = false ∧
       r.1.id = b.id ∧
       (b.hasFlag = true → r.2.1 = none ∧ r.2.2.1 = ⟨g - 3, halfFloor g⟩) ∧
       (b.hasFlag = false → r.2.1 = holder ∧ r.2.2.1 = flag))) ∧
    (∀ row : Int, 0 ≤ row → row < g → ∃ rv : ℕ, randRow g rv = row) := by
  have hrow := randRow_mem g hg (rng k)
  refine ⟨?_, ?_, fun row h1 h2 => randRow_surj g row h1 h2⟩ <;>
  · intro hcond
    simp only [tagOne, if_pos hcond]
    cases hbf : b.hasFlag <;>
      simp [hbf, hrow.1, hrow.2]

/-- Witness for C4: the flag-carrying blue-0 tagged by red-0 at (2,3) on
the 6×6 grid is sent to the blue edge `x = 4`, loses the flag, and the
red flag and its holder are reset. -/
theorem c4_witness :
    (redTerritory 6 tagB4.x ∧ tagR4.x = tagB4.x ∧ tagR4.y = tagB4.y) ∧
    (let r := tagOne (redTerritory 6) (6 - 2) ⟨2, halfFloor 6⟩ 6
      tagR4 tagB4 (some ⟨.blue, 0⟩) ⟨2, halfFloor 6⟩ rng0 0
     r.1.x = 6 - 2 ∧ 0 ≤ r.1.y ∧ r.1.y < 6 ∧ r.1.hasFlag = false ∧
     r.1.id = tagB4.id ∧
     (tagB4.hasFlag = true → r.2.1 = none ∧ r.2.2.1 = ⟨2, halfFloor 6⟩) ∧
     (tagB4.hasFlag = false → r.2.1 = some ⟨.blue, 0⟩ ∧
       r.2.2.1 = ⟨2, halfFloor 6⟩)) :=
  ⟨by decide,
    (c4_tagging_effect 6 (by norm_num) rng0 0 tagR4 tagB4
        (some ⟨.blue, 0⟩) ⟨2, halfFloor 6⟩).1 (by decide)⟩

/-- Counterexample to claim C10 as stated: grid size 4 is even and the
cell (2,1) is on the midline column for both territory tests, yet after
`checkTagging` the red agent has NOT kept its position — the blue agent
is relocated to the spawn edge `x = 4 - 2 = 2`, which at this grid size
is the midline itself, so the blue pass tags the red agent right back. -/
theorem c10_counterexample :
    ((4:Int) % 2 = 0) ∧
    (redTerritory 4 (halfFloor 4) = true ∧ blueTerritory 4 (halfFloor 4) = true) ∧
    rC10.x = halfFloor 4 ∧ bC10.x = halfFloor 4 ∧ rC10.y = bC10.y ∧
    ¬((checkTagging envC10 rng1 0).1.redTeam.map (fun a => (a.x, a.y)) =
      [(rC10.x, rC10.y)]) := by decide

/-- Claim C10, amended (corrected).  For even `gridSize`, the midline
column `x = gridSize/2` satisfies both territory tests of the tagging
check; when a red and a blue agent share a cell in that column (one
agent per team) and `gridSize ≠ 4`, the red pass runs first and only the
blue agent is relocated — to the blue spawn edge `x = gridSize - 2` —
while the red agent keeps its position.  (At `gridSize = 4`, and only
there, the blue spawn edge coincides with the midline, so the relocated
blue agent can immediately tag the red agent back: see the
counterexample.) -/
theorem c10_midline_tagging (g : Int) (hdvd : (2:Int) ∣ g) (hne : g ≠ 4)
    (e : GameEnv) (r b : Agent) (rng : ℕ → ℕ)
    (hgrid : e.gridSize = g)
    (hred : e.redTeam = [r]) (hblue : e.blueTeam = [b])
    (hrx : r.x = halfFloor g) (hbx : b.x = halfFloor g) (hy : r.y = b.y) :
    redTerritory g (halfFloor g) = true ∧
    blueTerritory g (halfFloor g) = true ∧
    (checkTagging e rng 0).1.blueTeam.map (fun a => a.x) = [g - 2] ∧
    (checkTagging e rng 0).1.redTeam = [r] := by
  obtain ⟨m, rfl⟩ := hdvd
  have hhalf : halfFloor (2 * m) = m := Int.mul_fdiv_cancel_left m two_ne_zero
  have hm2 : m ≠ 2 := by omega
  rw [hhalf] at hrx hbx
  have hterrRm : redTerritory (2 * m) m = true := by simp [redTerritory]
  have hterrBm : blueTerritory (2 * m) m = true := by simp [blueTerritory]
  have hcond : redTerritory (2 * m) b.x ∧ r.x = b.x ∧ r.y = b.y :=
    ⟨by rw [hbx]; exact hterrRm, by rw [hrx, hbx], hy⟩
  have hxne : ¬((2 * m - 2 : Int) = r.x) := by rw [hrx]; omega
  refine ⟨by rw [hhalf]; exact hterrRm, by rw [hhalf]; exact hterrBm, ?_, ?_⟩
  · simp only [checkTagging, hgrid, hred, hblue, tagOuter, tagInner, tagOne]
    rw [if_pos (show redTerritory (2*m) r.x = true by rw [hrx]; exact hterrRm)]
    rw [if_pos hcond]
    cases hbf : b.hasFlag <;> simp [hbf]
  · simp only [checkTagging, hgrid, hred, hblue, tagOuter, tagInner, tagOne]
    rw [if_pos (show redTerritory (2*m) r.x = true by rw [hrx]; exact hterrRm)]
    rw [if_pos hcond]
    cases hbf : b.hasFlag <;>
      simp only [hbf, if_true, if_false, Bool.false_eq_true, Bool.true_eq_false] <;>
      · simp only [tagOuter, tagInner, tagOne]
        split
        · simp [hxne]
        · rfl

/-- Witness for the amended C10 on the 6×6 grid: red-0 and blue-0 share
the midline cell (3,1); blue-0 is relocated to `x = 4`, red-0 stays. -/
theorem c10_witness :
    ((2:Int) ∣ 6 ∧ (6:Int) ≠ 4 ∧ envW10.gridSize = 6 ∧
      envW10.redTeam = [rW10] ∧ envW10.blueTeam = [bW10] ∧
      rW10.x = halfFloor 6 ∧ bW10.x = halfFloor 6 ∧ rW10.y = bW10.y) ∧
    (redTerritory 6 (halfFloor 6) = true ∧
      blueTerritory 6 (halfFloor 6) = true ∧
      (checkTagging envW10 rng0 0).1.blueTeam.map (fun a => a.x) = [6 - 2] ∧
      (checkTagging envW10 rng0 0).1.redTeam = [rW10]) :=
  ⟨⟨⟨3, rfl⟩, by decide, rfl, rfl, rfl, by decide, by decide, rfl⟩,
    c10_midline_tagging 6 ⟨3, rfl⟩ (by decide) envW10 rW10 bW10 rng0 rfl
      rfl rfl (by decide) (by decide) rfl⟩

theorem mid_id_notin (pre rest : List Agent) (a : Agent)
    (hnd : ((pre ++ a :: rest).map Agent.id).Nodup) :
    (∀ u ∈ pre, u.id ≠ a.id) ∧ (∀ u ∈ rest, u.id ≠ a.id) := by
  rw [List.map_append, List.map_cons, List.nodup_append] at hnd
  obtain ⟨h1, h2, h3⟩ := hnd
  rw [List.nodup_cons] at h2
  constructor
  · intro u hu heq
    exact h3 (List.mem_map_of_mem Agent.id hu)
      (by rw [heq]; exact List.mem_cons_self _ _)
  · intro u hu heq
    exact h2.1 (heq ▸ List.mem_map_of_mem Agent.id hu)

theorem captureOne_preserves (flag : Cell) (isHome : Int → Bool)
    (pre rest : List Agent) (a : Agent) (holder : Option AgentId)
    (score : Int) (fc : Bool)
    (hnd : ((pre ++ a :: rest).map Agent.id).Nodup)
    (hok : TeamHolderOK (pre ++ a :: rest) holder) :
    (captureOne flag isHome a holder score fc).1.id = a.id ∧
    TeamHolderOK (pre ++ (captureOne flag isHome a holder score fc).1 :: rest)
      (captureOne flag isHome a holder score fc).2.1 := by
  obtain ⟨hpre, hrest⟩ := mid_id_notin pre rest a hnd
  obtain ⟨hiff, hmem⟩ := hok
  have hmem_a : a ∈ pre ++ a :: rest :=
    List.mem_append_right _ (List.mem_cons_self _ _)
  by_cases hpick : (¬(a.hasFlag = true) ∧ a.x = flag.x ∧ a.y = flag.y ∧
      holder = none)
  · have hall : ∀ u ∈ pre ++ a :: rest, u.hasFlag = false := by
      intro u hu
      have h := hiff u hu
      rw [hpick.2.2.2] at h
      simpa using h
    by_cases hhome : isHome a.x = true
    · have hres : captureOne flag isHome a holder score fc =
          ({ a with hasFlag := false }, none, score + 1, true) := by
        simp only [captureOne, if_pos hpick]
        simp [hhome]
      rw [hres]
      refine ⟨rfl, ?_, ?_⟩
      · intro u hu
        rcases List.mem_append.mp hu with hu | hu
        · simp [hall u (List.mem_append_left _ hu)]
        · rcases List.mem_cons.mp hu with rfl | hu
          · simp
          · simp [hall u (List.mem_append_right _ (List.mem_cons_of_mem _ hu))]
      · intro i hi
        exact absurd hi (by simp)
    · have hres : captureOne flag isHome a holder score fc =
          ({ a with hasFlag := true }, some a.id, score, fc) := by
        simp only [captureOne, if_pos hpick]
        rw [if_neg (fun hc => hhome hc.2)]
      rw [hres]
      refine ⟨rfl, ?_, ?_⟩
      · intro u hu
        rcases List.mem_append.mp hu with hu | hu
        · refine iff_of_false ?_ ?_
          · simp [hall u (List.mem_append_left _ hu)]
          · simp only [Option.some.injEq]
            exact fun h => hpre u hu h.symm
        · rcases List.mem_cons.mp hu with rfl | hu
          · simp
          · refine iff_of_false ?_ ?_
            · simp [hall u (List.mem_append_right _ (List.mem_cons_of_mem _ hu))]
            · simp only [Option.some.injEq]
              exact fun h => hrest u hu h.symm
      · intro i hi
        rw [Option.some.injEq] at hi
        subst hi
        have : ({ a with hasFlag := true } : Agent) ∈
            pre ++ { a with hasFlag := true } :: rest :=
          List.mem_append_right _ (List.mem_cons_self _ _)
        have h2 : Agent.id { a with hasFlag := true } ∈
            List.map Agent.id (pre ++ { a with hasFlag := true } :: rest) :=
          List.mem_map_of_mem Agent.id this
        exact h2
  · by_cases hret : (a.hasFlag = true ∧ isHome a.x = true)
    · have hha : holder = some a.id := (hiff a hmem_a).mp hret.1
      have hres : captureOne flag isHome a holder score fc =
          ({ a with hasFlag := false }, none, score + 1, true) := by
        simp only [captureOne, if_neg hpick]
        rw [if_pos hret]
      rw [hres]
      refine ⟨rfl, ?_, ?_⟩
      · intro u hu
        rcases List.mem_append.mp hu with hu | hu
        · refine iff_of_false ?_ (by simp)
          have h := hiff u (List.mem_append_left _ hu)
          rw [hha] at h
          simp only [Option.some.injEq] at h
          exact fun hflag => hpre u hu (h.mp hflag).symm
        · rcases List.mem_cons.mp hu with rfl | hu
          · simp
          · refine iff_of_false ?_ (by simp)
            have h := hiff u (List.mem_append_right _ (List.mem_cons_of_mem _ hu))
            rw [hha] at h
            simp only [Option.some.injEq] at h
            exact fun hflag => hrest u hu (h.mp hflag).symm
      · intro i hi
        exact absurd hi (by simp)
    · have hres : captureOne flag isHome a holder score fc =
          (a, holder, score, fc) := by
        simp only [captureOne, if_neg hpick]
        rw [if_neg hret]
      rw [hres]
      exact ⟨rfl, hiff, hmem⟩

theorem capturePass_ok (flag : Cell) (isHome : Int → Bool)
    (team : List Agent) :
    ∀ (pre : List Agent) (holder : Option AgentId) (score : Int) (fc : Bool),
      ((pre ++ team).map Agent.id).Nodup →
      TeamHolderOK (pre ++ team) holder →
      (capturePass flag isHome team holder score fc).1.map Agent.id =
        team.map Agent.id ∧
      TeamHolderOK (pre ++ (capturePass flag isHome team holder score fc).1)
        (capturePass flag isHome team holder score fc).2.1 := by
  induction team with
  | nil =>
    intro pre holder score fc hnd hok
    simpa [capturePass] using hok
  | cons a rest ih =>
    intro pre holder score fc hnd hok
    obtain ⟨hid, hok1⟩ :=
      captureOne_preserves flag isHome pre rest a holder score fc hnd hok
    set r := captureOne flag isHome a holder score fc with hr
    have hnd1 : (((pre ++ [r.1]) ++ rest).map Agent.id).Nodup := by
      have heq : ((pre ++ [r.1]) ++ rest).map Agent.id =
          ((pre ++ a :: rest).map Agent.id) := by
        simp [hid]
      rw [heq]; exact hnd
    have hok1' : TeamHolderOK ((pre ++ [r.1]) ++ rest) r.2.1 := by
      rw [List.append_assoc, List.singleton_append]; exact hok1
    obtain ⟨hids, hok2⟩ := ih (pre ++ [r.1]) r.2.1 r.2.2.1 r.2.2.2 hnd1 hok1'
    rw [List.append_assoc, List.singleton_append] at hok2
    constructor
    · show ((r.1 ::
        (capturePass flag isHome rest r.2.1 r.2.2.1 r.2.2.2).1).map Agent.id) =
        (a :: rest).map Agent.id
      simp [hids, hid]
    · exact hok2

theorem tagOne_preserves (terr : Int → Bool) (spawnX : Int) (defFlag : Cell)
    (g : Int) (tagger : Agent) (rng : ℕ → ℕ)
    (pre rest : List Agent) (b : Agent) (holder : Option AgentId)
    (flag : Cell) (k : ℕ)
    (hnd : ((pre ++ b :: rest).map Agent.id).Nodup)
    (hok : TeamHolderOK (pre ++ b :: rest) holder) :
    (tagOne terr spawnX defFlag g tagger b holder flag rng k).1.id = b.id ∧
    TeamHolderOK
      (pre ++ (tagOne terr spawnX defFlag g tagger b holder flag rng k).1 :: rest)
      (tagOne terr spawnX defFlag g tagger b holder flag rng k).2.1 := by
  obtain ⟨hpre, hrest⟩ := mid_id_notin pre rest b hnd
  obtain ⟨hiff, hmem⟩ := hok
  have hmem_b : b ∈ pre ++ b :: rest :=
    List.mem_append_right _ (List.mem_cons_self _ _)
  by_cases hg : (terr b.x = true ∧ tagger.x = b.x ∧ tagger.y = b.y)
  · by_cases hbf : b.hasFlag = true
    · have hh : holder = some b.id := (hiff b hmem_b).mp hbf
      have hres : tagOne terr spawnX defFlag g tagger b holder flag rng k =
          ({ b with x := spawnX, y := randRow g (rng k), hasFlag := false },
            none, defFlag, k + 1) := by
        simp only [tagOne, if_pos hg]
        simp [hbf]
      rw [hres]
      refine ⟨rfl, ?_, ?_⟩
      · intro u hu
        rcases List.mem_append.mp hu with hu | hu
        · refine iff_of_false ?_ (by simp)
          have h := hiff u (List.mem_append_left _ hu)
          rw [hh] at h
          simp only [Option.some.injEq] at h
          exact fun hflag => hpre u hu (h.mp hflag).symm
        · rcases List.mem_cons.mp hu with rfl | hu
          · simp
          · refine iff_of_false ?_ (by simp)
            have h := hiff u
              (List.mem_append_right _ (List.mem_cons_of_mem _ hu))
            rw [hh] at h
            simp only [Option.some.injEq] at h
            exact fun hflag => hrest u hu (h.mp hflag).symm
      · intro i hi
        exact absurd hi (by simp)
    · have hres : tagOne terr spawnX defFlag g tagger b holder flag rng k =
          ({ b with x := spawnX, y := randRow g (rng k) }, holder, flag, k + 1) := by
        simp only [tagOne, if_pos hg]
        simp [hbf]
      rw [hres]
      refine ⟨rfl, ?_, ?_⟩
      · intro u hu
        rcases List.mem_append.mp hu with hu | hu
        · exact hiff u (List.mem_append_left _ hu)
        · rcases List.mem_cons.mp hu with rfl | hu
          · exact hiff b hmem_b
          · exact hiff u
              (List.mem_append_right _ (List.mem_cons_of_mem _ hu))
      · intro i hi
        have heq : (pre ++ { b with x := spawnX, y := randRow g (rng k) } ::
            rest).map Agent.id = (pre ++ b :: rest).map Agent.id := by simp
        rw [heq]
        exact hmem i hi
  · have hres : tagOne terr spawnX defFlag g tagger b holder flag rng k =
        (b, holder, flag, k) := by
      simp only [tagOne, if_neg hg]
    rw [hres]
    exact ⟨rfl, hiff, hmem⟩

theorem tagInner_ok (terr : Int → Bool) (spawnX : Int) (defFlag : Cell)
    (g : Int) (tagger : Agent) (rng : ℕ → ℕ) (tagged : List Agent) :
    ∀ (pre : List Agent) (holder : Option AgentId) (flag : Cell) (k : ℕ),
      ((pre ++ tagged).map Agent.id).Nodup →
      TeamHolderOK (pre ++ tagged) holder →
      (tagInner terr spawnX defFlag g tagger rng tagged holder flag k).1.map
        Agent.id = tagged.map Agent.id ∧
      TeamHolderOK
        (pre ++ (tagInner terr spawnX defFlag g tagger rng tagged holder flag k).1)
        (tagInner terr spawnX defFlag g tagger rng tagged holder flag k).2.1 := by
  induction tagged with
  | nil =>
    intro pre holder flag k hnd hok
    simpa [tagInner] using hok
  | cons b rest ih =>
    intro pre holder flag k hnd hok
    obtain ⟨hid, hok1⟩ :=
      tagOne_preserves terr spawnX defFlag g tagger rng pre rest b holder flag k hnd hok
    set r := tagOne terr spawnX defFlag g tagger b holder flag rng k with hr
    have hnd1 : (((pre ++ [r.1]) ++ rest).map Agent.id).Nodup := by
      have heq : ((pre ++ [r.1]) ++ rest).map Agent.id =
          ((pre ++ b :: rest).map Agent.id) := by
        simp [hid]
      rw [heq]; exact hnd
    have hok1' : TeamHolderOK ((pre ++ [r.1]) ++ rest) r.2.1 := by
      rw [List.append_assoc, List.singleton_append]; exact hok1
    obtain ⟨hids, hok2⟩ := ih (pre ++ [r.1]) r.2.1 r.2.2.1 r.2.2.2 hnd1 hok1'
    rw [List.append_assoc, List.singleton_append] at hok2
    constructor
    · show ((r.1 ::
        (tagInner terr spawnX defFlag g tagger rng rest r.2.1 r.2.2.1 r.2.2.2).1).map
          Agent.id) = (b :: rest).map Agent.id
      simp [hids, hid]
    · exact hok2

theorem tagOuter_ok (terrT terrG : Int → Bool) (spawnX : Int) (defFlag : Cell)
    (g : Int) (rng : ℕ → ℕ) (taggers : List Agent) :
    ∀ (tagged : List Agent) (holder : Option AgentId) (flag : Cell) (k : ℕ),
      (tagged.map Agent.id).Nodup →
      TeamHolderOK tagged holder →
      (tagOuter terrT terrG spawnX defFlag g rng taggers tagged holder flag k).1.map
        Agent.id = tagged.map Agent.id ∧
      TeamHolderOK
        (tagOuter terrT terrG spawnX defFlag g rng taggers tagged holder flag k).1
        (tagOuter terrT terrG spawnX defFlag g rng taggers tagged holder flag k).2.1 := by
  induction taggers with
  | nil =>
    intro tagged holder flag k hnd hok
    exact ⟨rfl, hok⟩
  | cons t ts ih =>
    intro tagged holder flag k hnd hok
    by_cases ht : terrT t.x = true
    · have hres : tagOuter terrT terrG spawnX defFlag g rng (t :: ts) tagged holder flag k =
          tagOuter terrT terrG spawnX defFlag g rng ts
            (tagInner terrG spawnX defFlag g t rng tagged holder flag k).1
            (tagInner terrG spawnX defFlag g t rng tagged holder flag k).2.1
            (tagInner terrG spawnX defFlag g t rng tagged holder flag k).2.2.1
            (tagInner terrG spawnX defFlag g t rng tagged holder flag k).2.2.2 := by
        simp only [tagOuter, if_pos ht]
      obtain ⟨hids1, hok1⟩ := tagInner_ok terrG spawnX defFlag g t rng tagged
        [] holder flag k (by simpa using hnd) (by simpa using hok)
      rw [List.nil_append] at hok1
      obtain ⟨hids2, hok2⟩ := ih
        (tagInner terrG spawnX defFlag g t rng tagged holder flag k).1
        (tagInner terrG spawnX defFlag g t rng tagged holder flag k).2.1
        (tagInner terrG spawnX defFlag g t rng tagged holder flag k).2.2.1
        (tagInner terrG spawnX defFlag g t rng tagged holder flag k).2.2.2
        (by rw [hids1]; exact hnd) hok1
      rw [hres]
      exact ⟨by rw [hids2, hids1], hok2⟩
    · have hres : tagOuter terrT terrG spawnX defFlag g rng (t :: ts) tagged holder flag k =
          tagOuter terrT terrG spawnX defFlag g rng ts tagged holder flag k := by
        simp only [tagOuter, if_neg ht]
      rw [hres]
      exact ih tagged holder flag k hnd hok

theorem moveAgent_id (e : GameEnv) (a : Agent) (action : Fin 5) :
    (moveAgent e a action).id = a.id := by
  simp only [moveAgent]
  split <;> rfl

theorem moveAgent_hasFlag (e : GameEnv) (a : Agent) (action : Fin 5) :
    (moveAgent e a action).hasFlag = a.hasFlag := by
  simp only [moveAgent]
  split <;> rfl

theorem agentRewardCore_id (w : RewardWeights) (ownSide enemySide : Int → Bool)
    (baseDist : Int → Int) (ownFlag enemyFlag : Cell)
    (mates enemies : List Agent) (ownScore : Int) (ownHolder : Option AgentId)
    (a : Agent) :
    (agentRewardCore w ownSide enemySide baseDist ownFlag enemyFlag mates
      enemies ownScore ownHolder a).2.id = a.id := by
  simp only [agentRewardCore]
  split <;> (try split) <;> rfl

theorem agentRewardCore_hasFlag (w : RewardWeights)
    (ownSide enemySide : Int → Bool) (baseDist : Int → Int)
    (ownFlag enemyFlag : Cell) (mates enemies : List Agent) (ownScore : Int)
    (ownHolder : Option AgentId) (a : Agent) :
    (agentRewardCore w ownSide enemySide baseDist ownFlag enemyFlag mates
      enemies ownScore ownHolder a).2.hasFlag = a.hasFlag := by
  simp only [agentRewardCore]
  split <;> (try split) <;> rfl

theorem map_id_of_preserve (team : List Agent) (f : Agent → Agent)
    (hf : ∀ a, (f a).id = a.id) :
    (team.map f).map Agent.id = team.map Agent.id := by
  rw [List.map_map]
  exact List.map_congr_left (fun a _ => hf a)

theorem TeamHolderOK_map (team : List Agent) (holder : Option AgentId)
    (f : Agent → Agent)
    (hf : ∀ a, (f a).id = a.id ∧ (f a).hasFlag = a.hasFlag)
    (h : TeamHolderOK team holder) : TeamHolderOK (team.map f) holder := by
  obtain ⟨hiff, hmem⟩ := h
  constructor
  · intro u hu
    rcases List.mem_map.mp hu with ⟨a, ha, rfl⟩
    rw [(hf a).1, (hf a).2]
    exact hiff a ha
  · intro i hi
    rw [map_id_of_preserve team f (fun a => (hf a).1)]
    exact hmem i hi

theorem applyMoves_ok (e : GameEnv) (actions : AgentId → Option (Fin 5))
    (h : StateOK e) : StateOK (applyMoves e actions) := by
  obtain ⟨hnr, hnb, hdis, hokr, hokb⟩ := h
  have hf : ∀ a : Agent,
      ((match actions a.id with
        | some act => moveAgent e a act
        | none => a) : Agent).id = a.id ∧
      ((match actions a.id with
        | some act => moveAgent e a act
        | none => a) : Agent).hasFlag = a.hasFlag := by
    intro a
    cases actions a.id with
    | none => exact ⟨rfl, rfl⟩
    | some act => exact ⟨moveAgent_id e a act, moveAgent_hasFlag e a act⟩
  have hidsr := map_id_of_preserve e.redTeam _ (fun a => (hf a).1)
  have hidsb := map_id_of_preserve e.blueTeam _ (fun a => (hf a).1)
  refine ⟨?_, ?_, ?_, ?_, ?_⟩
  · show ((e.redTeam.map _).map Agent.id).Nodup
    rw [hidsr]; exact hnr
  · show ((e.blueTeam.map _).map Agent.id).Nodup
    rw [hidsb]; exact hnb
  · show List.Disjoint ((e.redTeam.map _).map Agent.id)
      ((e.blueTeam.map _).map Agent.id)
    rw [hidsr, hidsb]; exact hdis
  · exact TeamHolderOK_map _ _ _ hf hokr
  · exact TeamHolderOK_map _ _ _ hf hokb

theorem checkFlagCaptures_ok (e : GameEnv) (h : StateOK e) :
    StateOK (checkFlagCaptures e).1 := by
  obtain ⟨hnr, hnb, hdis, hokr, hokb⟩ := h
  obtain ⟨hidsr, hokr2⟩ := capturePass_ok e.blueFlag (fun x => decide (x ≤ 1))
    e.redTeam [] e.blueFlagHolder e.redScore false (by simpa using hnr)
    (by simpa using hokr)
  rw [List.nil_append] at hokr2
  obtain ⟨hidsb, hokb2⟩ := capturePass_ok e.redFlag
    (fun x => decide (x ≥ e.gridSize - 2)) e.blueTeam [] e.redFlagHolder
    e.blueScore
    (capturePass e.blueFlag (fun x => decide (x ≤ 1)) e.redTeam
      e.blueFlagHolder e.redScore false).2.2.2
    (by simpa using hnb) (by simpa using hokb)
  rw [List.nil_append] at hokb2
  exact ⟨hidsr.symm ▸ hnr, hidsb.symm ▸ hnb,
    hidsr.symm ▸ hidsb.symm ▸ hdis, hokr2, hokb2⟩

theorem checkTagging_ok (e : GameEnv) (rng : ℕ → ℕ) (k : ℕ) (h : StateOK e) :
    StateOK (checkTagging e rng k).1 := by
  obtain ⟨hnr, hnb, hdis, hokr, hokb⟩ := h
  obtain ⟨hidsb, hokb2⟩ := tagOuter_ok (redTerritory e.gridSize)
    (redTerritory e.gridSize) (e.gridSize - 2) ⟨2, halfFloor e.gridSize⟩
    e.gridSize rng e.redTeam e.blueTeam e.redFlagHolder e.redFlag k hnb hokb
  obtain ⟨hidsr, hokr2⟩ := tagOuter_ok (blueTerritory e.gridSize)
    (blueTerritory e.gridSize) 1 ⟨e.gridSize - 3, halfFloor e.gridSize⟩
    e.gridSize rng
    (tagOuter (redTerritory e.gridSize) (redTerritory e.gridSize)
      (e.gridSize - 2) ⟨2, halfFloor e.gridSize⟩ e.gridSize rng e.redTeam
      e.blueTeam e.redFlagHolder e.redFlag k).1
    e.redTeam e.blueFlagHolder e.blueFlag
    (tagOuter (redTerritory e.gridSize) (redTerritory e.gridSize)
      (e.gridSize - 2) ⟨2, halfFloor e.gridSize⟩ e.gridSize rng e.redTeam
      e.blueTeam e.redFlagHolder e.redFlag k).2.2.2 hnr hokr
  exact ⟨hidsr.symm ▸ hnr, hidsb.symm ▸ hnb,
    hidsr.symm ▸ hidsb.symm ▸ hdis, hokr2, hokb2⟩

theorem calculateRewards_ok (e : GameEnv) (h : StateOK e) :
    StateOK (calculateRewards e).2 := by
  obtain ⟨hnr, hnb, hdis, hokr, hokb⟩ := h
  have hfr : ∀ a : Agent, ((redAgentReward e a).2).id = a.id ∧
      ((redAgentReward e a).2).hasFlag = a.hasFlag := fun a =>
    ⟨agentRewardCore_id _ _ _ _ _ _ _ _ _ _ a,
      agentRewardCore_hasFlag _ _ _ _ _ _ _ _ _ _ a⟩
  have hfb : ∀ a : Agent, ((blueAgentReward e a).2).id = a.id ∧
      ((blueAgentReward e a).2).hasFlag = a.hasFlag := fun a =>
    ⟨agentRewardCore_id _ _ _ _ _ _ _ _ _ _ a,
      agentRewardCore_hasFlag _ _ _ _ _ _ _ _ _ _ a⟩
  have hteamr : (calculateRewards e).2.redTeam =
      e.redTeam.map (fun a => (redAgentReward e a).2) := by
    simp [calculateRewards]
  have hteamb : (calculateRewards e).2.blueTeam =
      e.blueTeam.map (fun a => (blueAgentReward e a).2) := by
    simp [calculateRewards]
  have hidsr := map_id_of_preserve e.redTeam _ (fun a => (hfr a).1)
  have hidsb := map_id_of_preserve e.blueTeam _ (fun a => (hfb a).1)
  refine ⟨?_, ?_, ?_, ?_, ?_⟩
  · rw [hteamr, hidsr]; exact hnr
  · rw [hteamb, hidsb]; exact hnb
  · rw [hteamr, hteamb, hidsr, hidsb]; exact hdis
  · show TeamHolderOK (calculateRewards e).2.redTeam e.blueFlagHolder
    rw [hteamr]
    exact TeamHolderOK_map _ _ _ hfr hokr
  · show TeamHolderOK (calculateRewards e).2.blueTeam e.redFlagHolder
    rw [hteamb]
    exact TeamHolderOK_map _ _ _ hfb hokb

theorem step_ok (e : GameEnv) (actions : AgentId → Option (Fin 5))
    (rng : ℕ → ℕ) (h : StateOK e) : StateOK (step e actions rng).2 := by
  have h4 : StateOK (calculateRewards
      ((checkTagging (checkFlagCaptures (applyMoves e actions)).1 rng 0).1)).2 :=
    calculateRewards_ok _
      (checkTagging_ok _ rng 0 (checkFlagCaptures_ok _ (applyMoves_ok e actions h)))
  simp only [step]
  split
  · exact h4
  · exact h4

theorem reset_StateOK (e : GameEnv) : StateOK (reset e) := by
  have hinj : ∀ c : TeamColor, Function.Injective
      (fun i : Nat => (AgentId.mk c i)) := by
    intro c i j hij
    simpa using hij
  refine ⟨?_, ?_, ?_, ?_, ?_⟩
  · show (((List.range e.teamSize).map _).map Agent.id).Nodup
    rw [List.map_map]
    exact (List.nodup_range _).map (hinj .red)
  · show (((List.range e.teamSize).map _).map Agent.id).Nodup
    rw [List.map_map]
    exact (List.nodup_range _).map (hinj .blue)
  · show List.Disjoint
      (((List.range e.teamSize).map
        (fun i => mkAgent .red i 1 (3 + (i : Int) * 3))).map Agent.id)
      (((List.range e.teamSize).map
        (fun i => mkAgent .blue i (e.gridSize - 2) (3 + (i : Int) * 3))).map
        Agent.id)
    intro i hi hj
    rw [List.map_map] at hi hj
    rcases List.mem_map.mp hi with ⟨u, -, rfl⟩
    rcases List.mem_map.mp hj with ⟨v, -, hvu⟩
    exact absurd (congrArg AgentId.color hvu) (by simp [mkAgent])
  · show TeamHolderOK ((List.range e.teamSize).map
      (fun i => mkAgent .red i 1 (3 + (i : Int) * 3))) none
    refine ⟨fun a ha => ?_, fun i hi => by cases hi⟩
    rcases List.mem_map.mp ha with ⟨i, -, rfl⟩
    simp [mkAgent]
  · show TeamHolderOK ((List.range e.teamSize).map
      (fun i => mkAgent .blue i (e.gridSize - 2) (3 + (i : Int) * 3))) none
    refine ⟨fun a ha => ?_, fun i hi => by cases hi⟩
    rcases List.mem_map.mp ha with ⟨i, -, rfl⟩
    simp [mkAgent]

theorem Reachable_StateOK (g : Int) (n : Nat) (w : RewardWeights)
    (e : GameEnv) (h : Reachable g n w e) : StateOK e := by
  induction h with
  | base => exact reset_StateOK _
  | step e actions rng _ ih => exact step_ok e actions rng ih

theorem StateOK_FlagInvariant (e : GameEnv) (h : StateOK e) :
    FlagInvariant e := by
  obtain ⟨hnr, hnb, hdis, ⟨hiffr, hmemr⟩, ⟨hiffb, hmemb⟩⟩ := h
  refine ⟨?_, ?_, ?_, ?_⟩
  · intro i hi
    rcases List.mem_map.mp (hmemr i hi) with ⟨a, ha, rfl⟩
    refine ⟨a, ⟨ha, rfl, (hiffr a ha).mpr hi⟩, ?_⟩
    rintro a' ⟨ha', hid', -⟩
    exact List.inj_on_of_nodup_map hnr ha' ha hid'
  · intro i hi
    rcases List.mem_map.mp (hmemb i hi) with ⟨b, hb, rfl⟩
    refine ⟨b, ⟨hb, rfl, (hiffb b hb).mpr hi⟩, ?_⟩
    rintro b' ⟨hb', hid', -⟩
    exact List.inj_on_of_nodup_map hnb hb' hb hid'
  · intro a ha hflag
    refine ⟨(hiffr a ha).mp hflag, fun hc => ?_⟩
    exact hdis (List.mem_map_of_mem Agent.id ha) (hmemb a.id hc)
  · intro b hb hflag
    refine ⟨(hiffb b hb).mp hflag, fun hc => ?_⟩
    exact hdis (hmemr b.id hc) (List.mem_map_of_mem Agent.id hb)

/-- Claim C3 (confirmed).  In every state reachable from `reset()` by
`step(actions)` calls, each flag holder is either `null` or the id of
exactly one roster agent of the carrying team whose `hasFlag` is true,
at most one agent holds each flag, and every agent with `hasFlag` is the
holder recorded on exactly one enemy flag (its enemy flag, and never its
own team flag). -/
theorem c3_flag_holder_invariant (g : Int) (n : Nat) (w : RewardWeights)
    (e : GameEnv) (h : Reachable g n w e) : FlagInvariant e :=
  StateOK_FlagInvariant e (Reachable_StateOK g n w e h)

/-- Witness for C3: the state reached after one step of the concrete 6×6
scenario is reachable and satisfies the invariant. -/
theorem c3_witness : FlagInvariant (step env6 (actsRed 2) rng0).2 :=
  c3_flag_holder_invariant 6 1 weights1 _
    (Reachable.step _ (actsRed 2) rng0 Reachable.base)

end CTF